import Mathlib

/-
Verification development for the Atlas Coder cost-bounded execution engine.

The definitions below are shallow embeddings of the Python sources:
  - src/dspy_core/optimization.py   (CostTracker, ProgressiveComplexity)
  - src/atlas_coder/core/engine.py  (CostTracker with last_reset / calls_made)
  - src/dspy_core/cache.py          (SignatureCache)
  - src/dspy_core/model_strategy.py (HybridModelStrategy)
  - src/dspy_core/progressive_execution.py (ProgressiveExecutor)

Python floats are modelled as exact rationals, date strings as String,
dictionaries as insertion-ordered association lists (matching CPython dict
semantics).  External collaborators (the clock, the task executor, the
process environment) are passed as explicit parameters.
-/

namespace AtlasCoder

/-! ### Budget ledger of dspy_core/optimization.py (class CostTracker)

State is the daily budget together with the date-keyed dictionary
self.daily_costs.  The current date (datetime.now) is passed explicitly. -/

/-- State of dspy_core.optimization.CostTracker: daily_budget and the
date-keyed dict self.daily_costs. -/
structure CostTracker where
  dailyBudget : ℚ
  dailyCosts : List (String × ℚ)
deriving DecidableEq, Repr

/-- Embeds self.daily_costs.get(today, 0.0). -/
def lookupDailyCost (costs : List (String × ℚ)) (day : String) : ℚ :=
  match costs.find? (fun p => p.1 = day) with
  | some p => p.2
  | none => 0

/-- Embeds CostTracker.get_remaining_budget:
return max(0.0, self.daily_budget - used) where used = daily_costs.get(today, 0.0). -/
def getRemainingBudget (t : CostTracker) (today : String) : ℚ :=
  max 0 (t.dailyBudget - lookupDailyCost t.dailyCosts today)

/-- Embeds CostTracker.can_afford_task:
return estimated_cost <= self.get_remaining_budget(). -/
def canAffordTask (t : CostTracker) (today : String) (estimatedCost : ℚ) : Bool :=
  decide (estimatedCost ≤ getRemainingBudget t today)

/-- Embeds the ledger mutation of CostTracker.record_usage:
if today not in daily_costs, initialise it to 0.0, then add cost_estimate. -/
def recordUsage (t : CostTracker) (today : String) (costEstimate : ℚ) : CostTracker :=
  if (t.dailyCosts.find? (fun p => p.1 = today)).isSome then
    { t with dailyCosts :=
        t.dailyCosts.map (fun p => if p.1 = today then (p.1, p.2 + costEstimate) else p) }
  else
    { t with dailyCosts := t.dailyCosts ++ [(today, costEstimate)] }

/-! ### Budget ledger of atlas_coder/core/engine.py (class CostTracker)

This tracker carries the {daily_budget, current_cost, calls_made, last_reset}
record of the spec and performs the lazy day rollover. -/

/-- State of atlas_coder.core.engine.CostTracker. -/
structure EngineCostTracker where
  dailyBudget : ℚ
  currentCost : ℚ
  lastReset : String
  callsMade : ℕ
deriving DecidableEq, Repr

/-- Embeds CostTracker.reset_if_new_day:
if self.last_reset != today: zero current_cost and calls_made, stamp today. -/
def resetIfNewDay (today : String) (t : EngineCostTracker) : EngineCostTracker :=
  if t.lastReset ≠ today then
    { t with currentCost := 0, callsMade := 0, lastReset := today }
  else t

/-- Embeds CostTracker.can_make_call: rollover check, then the affordability
test (current_cost + estimated_cost) <= daily_budget.  The state after the
rollover is returned alongside the answer. -/
def canMakeCall (today : String) (t : EngineCostTracker) (estimatedCost : ℚ) :
    Bool × EngineCostTracker :=
  let t2 := resetIfNewDay today t
  (decide (t2.currentCost + estimatedCost ≤ t2.dailyBudget), t2)

/-- Embeds CostTracker.add_cost: rollover check, then
current_cost += cost and calls_made += 1. -/
def addCost (today : String) (t : EngineCostTracker) (cost : ℚ) : EngineCostTracker :=
  let t2 := resetIfNewDay today t
  { t2 with currentCost := t2.currentCost + cost, callsMade := t2.callsMade + 1 }

/-! ### Progressive execution: dspy_core/progressive_execution.py and
dspy_core/optimization.py (ProgressiveComplexity) -/

/-- The ExecutionLevel enum of progressive_execution.py. -/
inductive ExecutionLevel where
  | quickScan
  | detailedAnalysis
  | comprehensiveSolution
deriving DecidableEq, Repr

/-- Position of a level in the escalation order (index into level_order). -/
def levelIdx : ExecutionLevel → ℕ
  | .quickScan => 0
  | .detailedAnalysis => 1
  | .comprehensiveSolution => 2

/-- Embeds ProgressiveExecutor._get_next_level: the successor of the current
level in level_order, none at the top. -/
def getNextLevel : ExecutionLevel → Option ExecutionLevel
  | .quickScan => some .detailedAnalysis
  | .detailedAnalysis => some .comprehensiveSolution
  | .comprehensiveSolution => none

/-- Embeds ProgressiveComplexity.determine_initial_complexity.  The source
tests the analyze/review branch first and the urgency/quality branch second. -/
def determineInitialComplexity (taskType urgency : String) (qualityRequirement : ℚ) : String :=
  if (taskType = "analyze" ∨ taskType = "review") ∧ qualityRequirement < 0.8 then
    "quick_scan"
  else if urgency = "high" ∨ qualityRequirement > 0.9 then
    "comprehensive_solution"
  else
    "detailed_analysis"

/-- Embeds the Python enum constructor ExecutionLevel(value) used by
execute_with_escalation on the string returned by
determine_initial_complexity. -/
def levelOfString (s : String) : Option ExecutionLevel :=
  if s = "quick_scan" then some .quickScan
  else if s = "detailed_analysis" then some .detailedAnalysis
  else if s = "comprehensive_solution" then some .comprehensiveSolution
  else none

/-- The while-loop of ProgressiveExecutor.execute_with_escalation, recorded as
the list of levels attempted.  The executor and ledger are abstracted by an
oracle giving, for attempt number n, whether the attempt requested escalation
(exec_result.escalation_needed) and whether the escalated cost passed
can_afford_task.  fuel = max_escalations - escalation_count counts the
escalations still allowed; the loop breaks after an attempt when escalation
is not requested, when escalation_count has reached max_escalations (fuel 0),
when no higher level exists, or when the budget check fails. -/
def escRun (oracle : ℕ → Bool × Bool) : ℕ → ℕ → ExecutionLevel → List ExecutionLevel
  | _, 0, level => [level]
  | count, fuel + 1, level =>
    if (oracle count).1 then
      match getNextLevel level with
      | some next =>
        if (oracle count).2 then level :: escRun oracle (count + 1) fuel next
        else [level]
      | none => [level]
    else [level]

/-- Embeds ProgressiveExecutor.execute_with_escalation with no explicit
initial_level argument: the starting level comes from
determine_initial_complexity, then the escalation loop runs with
max_escalations = maxEsc (source default 2).  The none branch is unreachable
because determine_initial_complexity only returns valid level names. -/
def executeWithEscalation (maxEsc : ℕ) (oracle : ℕ → Bool × Bool)
    (taskType urgency : String) (qualityRequirement : ℚ) : List ExecutionLevel :=
  match levelOfString (determineInitialComplexity taskType urgency qualityRequirement) with
  | some l => escRun oracle 0 maxEsc l
  | none => []

instance : IsTrans ExecutionLevel (fun a b => levelIdx a < levelIdx b) :=
  ⟨fun _ _ _ h1 h2 => Nat.lt_trans h1 h2⟩

/-- Outcome of the try-block of one tier attempt in
ProgressiveExecutor._execute_at_level: either the constrained workflow call
returns (with its success flag, the estimated cost, and the escalation
decision), or it raises. -/
inductive AttemptOutcome where
  | ok (success : Bool) (cost : ℚ) (escalationNeeded : Bool)
  | raised
deriving DecidableEq, Repr

/-- The fields of ExecutionResult that the escalation loop and the ledger
read. -/
structure ExecAttemptResult where
  success : Bool
  cost : ℚ
  escalationNeeded : Bool
  nextLevel : Option ExecutionLevel
deriving DecidableEq, Repr

/-- Embeds the ledger-relevant behaviour of
ProgressiveExecutor._execute_at_level: on the normal path the cost metrics
are recorded on the ledger with cost_tracker.record_usage, while on the
exception path a failure result carrying the minimal cost 0.01 is returned
and record_usage is never called. -/
def executeAtLevel (tracker : CostTracker) (today : String) (level : ExecutionLevel)
    (outcome : AttemptOutcome) : CostTracker × ExecAttemptResult :=
  match outcome with
  | .ok success cost esc =>
    (recordUsage tracker today cost,
      { success := success, cost := cost, escalationNeeded := esc,
        nextLevel := if esc then getNextLevel level else none })
  | .raised =>
    (tracker,
      { success := false, cost := 0.01, escalationNeeded := true,
        nextLevel := getNextLevel level })

/-! ### Result cache: dspy_core/cache.py (SignatureCache)

memory_cache is modelled as an insertion-ordered association list, matching
CPython dict semantics.  Python floats (timestamps, execution times) are
exact rationals; the current time (time.time) is passed explicitly. -/

/-- JSON-style value stored in an input or output map. -/
inductive Value where
  | vStr (s : List Char)
  | vNum (q : ℚ)
  | vBool (b : Bool)
deriving DecidableEq, Repr

/-- Whether the value is a string, the isinstance(value, str) test of
_normalize_inputs. -/
def Value.isStr : Value → Bool
  | .vStr _ => true
  | _ => false

/-- The whitespace characters recognised by Python str.split with no
arguments and str.strip (ASCII subset). -/
def isPySpace (c : Char) : Bool :=
  c == ' ' || c == '\t' || c == '\n' || c == '\r' || c == '\x0b' || c == '\x0c'

/-- Helper for Python str.split with no arguments: walks the string,
accumulating the current token in reverse in acc and emitting it at each
whitespace run or at the end. -/
def splitWsAux : List Char → List Char → List (List Char)
  | [], acc => if acc.isEmpty then [] else [acc.reverse]
  | c :: cs, acc =>
    if isPySpace c then
      if acc.isEmpty then splitWsAux cs [] else acc.reverse :: splitWsAux cs []
    else splitWsAux cs (c :: acc)

/-- Python value.strip().split(): the whitespace-separated tokens of the
string (strip is subsumed because split() already ignores leading and
trailing whitespace). -/
def splitWs (s : List Char) : List (List Char) :=
  splitWsAux s []

/-- Python " ".join(tokens). -/
def joinSpace : List (List Char) → List Char
  | [] => []
  | [t] => t
  | t :: ts => t ++ ' ' :: joinSpace ts

/-- The string branch of SignatureCache._normalize_inputs:
" ".join(value.strip().split()). -/
def normalizeString (s : List Char) : List Char :=
  joinSpace (splitWs s)

/-- SignatureCache._normalize_inputs on one value: strings have their
whitespace collapsed and every other value is kept unchanged. -/
def normalizeValue : Value → Value
  | .vStr s => .vStr (normalizeString s)
  | v => v

/-- Embeds SignatureCache._normalize_inputs. -/
def normalizeInputs (inputs : List (String × Value)) : List (String × Value) :=
  inputs.map (fun p => (p.1, normalizeValue p.2))

/-- Field-name order used to model json.dumps(cache_data, sort_keys=True). -/
def keyNameLe (a b : String × Value) : Prop := a.1 ≤ b.1

instance : DecidableRel keyNameLe := fun a b => by
  unfold keyNameLe; infer_instance

/-- Pre-hash payload of SignatureCache._generate_cache_key: the cache_data
dictionary {signature, normalized inputs, model} serialised with sorted
keys.  The sha256 hexdigest is a deterministic function of this payload, so
two calls yield the same key exactly when the payloads coincide; the key is
therefore modelled by the canonical payload itself. -/
structure CacheKey where
  signature : String
  inputs : List (String × Value)
  model : String
deriving DecidableEq, Repr

/-- Embeds SignatureCache._generate_cache_key: normalise the inputs, then
serialise {signature, inputs, model} with sorted keys and hash. -/
def generateCacheKey (signature : String) (inputs : List (String × Value))
    (model : String) : CacheKey :=
  { signature := signature,
    inputs := List.insertionSort keyNameLe (normalizeInputs inputs),
    model := model }

/-- The CacheEntry dataclass of cache.py (hit_count defaults to 0). -/
structure CacheEntry where
  key : CacheKey
  signature : String
  inputs : List (String × Value)
  outputs : List (String × Value)
  model : String
  timestamp : ℚ
  success : Bool
  executionTime : ℚ
  hitCount : ℕ
deriving DecidableEq, Repr

/-- Python dict assignment d[k] = v on an insertion-ordered association
list: replace the stored value in place when the key is present, else
append. -/
def dictInsert (k : CacheKey) (v : CacheEntry) (cache : List (CacheKey × CacheEntry)) :
    List (CacheKey × CacheEntry) :=
  if cache.any (fun p => decide (p.1 = k)) then
    cache.map (fun p => if p.1 = k then (k, v) else p)
  else cache ++ [(k, v)]

/-- The ascending order used by SignatureCache._cleanup_cache:
entries.sort(key=lambda x: (x[1].hit_count, x[1].timestamp)). -/
def entryRankLe (a b : CacheKey × CacheEntry) : Prop :=
  a.2.hitCount < b.2.hitCount ∨
    (a.2.hitCount = b.2.hitCount ∧ a.2.timestamp ≤ b.2.timestamp)

instance : DecidableRel entryRankLe := fun a b => by
  unfold entryRankLe; infer_instance

instance : IsTotal (CacheKey × CacheEntry) entryRankLe := by
  constructor
  intro a b
  rcases Nat.lt_trichotomy a.2.hitCount b.2.hitCount with h | h | h
  · exact Or.inl (Or.inl h)
  · rcases le_total a.2.timestamp b.2.timestamp with ht | ht
    · exact Or.inl (Or.inr ⟨h, ht⟩)
    · exact Or.inr (Or.inr ⟨h.symm, ht⟩)
  · exact Or.inr (Or.inl h)

instance : IsTrans (CacheKey × CacheEntry) entryRankLe := by
  constructor
  intro a b c hab hbc
  rcases hab with h1 | ⟨h1, t1⟩
  · rcases hbc with h2 | ⟨h2, t2⟩
    · exact Or.inl (Nat.lt_trans h1 h2)
    · exact Or.inl (h2 ▸ h1)
  · rcases hbc with h2 | ⟨h2, t2⟩
    · exact Or.inl (h1 ▸ h2)
    · exact Or.inr ⟨h1.trans h2, t1.trans t2⟩

/-- Python entries[-k:]: the last k elements; the whole list when k = 0
(the slice [-0:] is [0:]) or when k exceeds the length. -/
def pythonSliceLast {α : Type} (k : ℕ) (l : List α) : List α :=
  if k = 0 then l else l.drop (l.length - k)

/-- keep_count = int(self.max_entries * 0.8); the float truncation is
modelled exactly as the floor of 4 * max_entries / 5 (8000 for the source
default max_entries = 10000). -/
def keepCount (maxEntries : ℕ) : ℕ := 4 * maxEntries / 5

/-- Embeds SignatureCache._cleanup_cache: return unchanged while the
population is at most 0.8 * max_entries; otherwise sort ascending by
(hit_count, timestamp) — Python list.sort is a stable sort, modelled by the
stable insertion sort — and keep the slice entries[-keep_count:]. -/
def cleanupCache (maxEntries : ℕ) (cache : List (CacheKey × CacheEntry)) :
    List (CacheKey × CacheEntry) :=
  if (cache.length : ℚ) ≤ (maxEntries : ℚ) * 0.8 then cache
  else pythonSliceLast (keepCount maxEntries) (List.insertionSort entryRankLe cache)

/-- The fresh pair stored by SignatureCache.put: the generated key together
with a freshly constructed CacheEntry whose hit_count takes its dataclass
default 0 and whose timestamp is the current time. -/
def mkEntry (signature : String) (inputs outputs : List (String × Value)) (model : String)
    (now executionTime : ℚ) (success : Bool) : CacheKey × CacheEntry :=
  (generateCacheKey signature inputs model,
    { key := generateCacheKey signature inputs model, signature := signature,
      inputs := normalizeInputs inputs, outputs := outputs, model := model,
      timestamp := now, success := success, executionTime := executionTime,
      hitCount := 0 })

/-- Embeds SignatureCache.put: store the fresh entry under its generated
key, then clean up when the population exceeds max_entries. -/
def putCache (maxEntries : ℕ) (signature : String) (inputs outputs : List (String × Value))
    (model : String) (now executionTime : ℚ) (success : Bool)
    (cache : List (CacheKey × CacheEntry)) : List (CacheKey × CacheEntry) :=
  let p := mkEntry signature inputs outputs model now executionTime success
  let c2 := dictInsert p.1 p.2 cache
  if c2.length > maxEntries then cleanupCache maxEntries c2 else c2

/-- Embeds the memory_cache effect of SignatureCache.get: on a hit the
stored entry's hit_count is incremented and its outputs are returned; on a
miss the cache is unchanged. -/
def getCache (signature : String) (inputs : List (String × Value)) (model : String)
    (cache : List (CacheKey × CacheEntry)) :
    Option (List (String × Value)) × List (CacheKey × CacheEntry) :=
  let key := generateCacheKey signature inputs model
  match cache.find? (fun p => decide (p.1 = key)) with
  | some p =>
    (some p.2.outputs,
      cache.map (fun q =>
        if q.1 = key then (q.1, { q.2 with hitCount := q.2.hitCount + 1 }) else q))
  | none => (none, cache)

/-- A string built from an initial whitespace run and a sequence of
(token, following-whitespace-run) pairs:
lead ++ t1 ++ s1 ++ t2 ++ s2 ++ ... ++ tn ++ sn.  Two strings differing only
in leading or trailing whitespace or in the length of internal whitespace
runs are exactly two assemblies of the same token list. -/
def assemble (lead : List Char) : List (List Char × List Char) → List Char
  | [] => lead
  | p :: ps => lead ++ p.1 ++ assemble p.2 ps

/-- Two values that agree up to whitespace: strings with the same
whitespace-separated token list, everything else equal. -/
def valueWsEquiv : Value → Value → Prop
  | .vStr s1, .vStr s2 => splitWs s1 = splitWs s2
  | v1, v2 => v1 = v2

/-! ### Backend selector: dspy_core/model_strategy.py -/

/-- The ModelTier enum of model_strategy.py. -/
inductive ModelTier where
  | localFree
  | openrouterCheap
  | openrouterBalanced
  | openrouterPremium
  | openrouterMax
deriving DecidableEq, Repr

/-- The ModelConfig dataclass of model_strategy.py. -/
structure ModelConfig where
  name : String
  tier : ModelTier
  costPer1mInput : ℚ
  costPer1mOutput : ℚ
  maxTokens : ℕ
  qualityScore : ℚ
  speedScore : ℚ
  specialization : List String
  apiBase : String
  requiresApiKey : Bool
deriving DecidableEq, Repr

/-- The ollama/qwen2.5-coder config of _initialize_model_configs. -/
def qwenCoderConfig : ModelConfig :=
  { name := "ollama/qwen2.5-coder", tier := .localFree, costPer1mInput := 0,
    costPer1mOutput := 0, maxTokens := 8192, qualityScore := 0.7, speedScore := 0.9,
    specialization := ["code", "analysis"], apiBase := "http://localhost:11434",
    requiresApiKey := false }

/-- The ollama/llama3.2 config of _initialize_model_configs. -/
def llama32Config : ModelConfig :=
  { name := "ollama/llama3.2", tier := .localFree, costPer1mInput := 0,
    costPer1mOutput := 0, maxTokens := 4096, qualityScore := 0.65, speedScore := 0.8,
    specialization := ["general", "analysis"], apiBase := "http://localhost:11434",
    requiresApiKey := false }

/-- The google/gemini-2.0-flash-lite-001 config of _initialize_model_configs. -/
def geminiFlashLiteConfig : ModelConfig :=
  { name := "google/gemini-2.0-flash-lite-001", tier := .openrouterCheap,
    costPer1mInput := 0.075, costPer1mOutput := 0.30, maxTokens := 8192,
    qualityScore := 0.75, speedScore := 0.95,
    specialization := ["general", "code", "analysis"],
    apiBase := "https://openrouter.ai/api/v1", requiresApiKey := true }

/-- The google/gemini-1.5-flash config of _initialize_model_configs. -/
def geminiFlashConfig : ModelConfig :=
  { name := "google/gemini-1.5-flash", tier := .openrouterCheap,
    costPer1mInput := 0.075, costPer1mOutput := 0.30, maxTokens := 8192,
    qualityScore := 0.78, speedScore := 0.9,
    specialization := ["general", "code", "analysis"],
    apiBase := "https://openrouter.ai/api/v1", requiresApiKey := true }

/-- The anthropic/claude-3.5-haiku config of _initialize_model_configs. -/
def haikuConfig : ModelConfig :=
  { name := "anthropic/claude-3.5-haiku", tier := .openrouterBalanced,
    costPer1mInput := 1.0, costPer1mOutput := 5.0, maxTokens := 8192,
    qualityScore := 0.85, speedScore := 0.85,
    specialization := ["code", "analysis", "general"],
    apiBase := "https://openrouter.ai/api/v1", requiresApiKey := true }

/-- The anthropic/claude-3.5-sonnet config of _initialize_model_configs. -/
def sonnetConfig : ModelConfig :=
  { name := "anthropic/claude-3.5-sonnet", tier := .openrouterPremium,
    costPer1mInput := 3.0, costPer1mOutput := 15.0, maxTokens := 8192,
    qualityScore := 0.95, speedScore := 0.7,
    specialization := ["code", "analysis", "general", "architecture"],
    apiBase := "https://openrouter.ai/api/v1", requiresApiKey := true }

/-- The anthropic/claude-3-opus config of _initialize_model_configs. -/
def opusConfig : ModelConfig :=
  { name := "anthropic/claude-3-opus", tier := .openrouterMax,
    costPer1mInput := 15.0, costPer1mOutput := 75.0, maxTokens := 4096,
    qualityScore := 0.98, speedScore := 0.5,
    specialization := ["architecture", "complex_reasoning", "code"],
    apiBase := "https://openrouter.ai/api/v1", requiresApiKey := true }

/-- Embeds HybridModelStrategy._initialize_model_configs, in source order. -/
def initializeModelConfigs : List (String × ModelConfig) :=
  [("ollama/qwen2.5-coder", qwenCoderConfig),
   ("ollama/llama3.2", llama32Config),
   ("google/gemini-2.0-flash-lite-001", geminiFlashLiteConfig),
   ("google/gemini-1.5-flash", geminiFlashConfig),
   ("anthropic/claude-3.5-haiku", haikuConfig),
   ("anthropic/claude-3.5-sonnet", sonnetConfig),
   ("anthropic/claude-3-opus", opusConfig)]

/-- Process environment consulted by the strategy: whether OPENAI_API_KEY is
set and whether the local Ollama service answers
(_is_ollama_available). -/
structure StrategyEnv where
  apiKeyPresent : Bool
  ollamaAvailable : Bool
deriving DecidableEq, Repr

/-- Embeds HybridModelStrategy._build_fallback_chain: local models first when
Ollama answers, then the OpenRouter models when the API key is set. -/
def buildFallbackChain (env : StrategyEnv) : List String :=
  (if env.ollamaAvailable then ["ollama/qwen2.5-coder", "ollama/llama3.2"] else []) ++
  (if env.apiKeyPresent then
    ["google/gemini-2.0-flash-lite-001", "google/gemini-1.5-flash",
     "anthropic/claude-3.5-haiku", "anthropic/claude-3.5-sonnet",
     "anthropic/claude-3-opus"] else [])

/-- Embeds HybridModelStrategy._estimate_task_cost. -/
def estimateTaskCost (model : ModelConfig) (complexity : ℚ) : ℚ :=
  if !model.requiresApiKey then 0
  else
    let totalTokens : ℚ := 500 + complexity * 2000
    let inputTokens := totalTokens * 0.6
    let outputTokens := totalTokens * 0.4
    inputTokens / 1000000 * model.costPer1mInput +
      outputTokens / 1000000 * model.costPer1mOutput

/-- The per (model_name, task_type) view of the performance cache read by
_get_historical_performance_bonus: none when the model or the task type has
no history, otherwise the stored (success_rate, avg_quality) pair. -/
def HistoryData := String → String → Option (ℚ × ℚ)

/-- The empty performance cache. -/
def emptyHistory : HistoryData := fun _ _ => none

/-- Embeds HybridModelStrategy._get_historical_performance_bonus:
(success_rate + avg_quality) * 0.05, or 0 without history. -/
def historicalPerformanceBonus (hist : HistoryData) (modelName taskType : String) : ℚ :=
  match hist modelName taskType with
  | none => 0
  | some p => (p.1 + p.2) * 0.05

/-- Embeds HybridModelStrategy._calculate_model_score. -/
def calculateModelScore (env : StrategyEnv) (hist : HistoryData) (model : ModelConfig)
    (taskComplexity qualityRequirement budgetRemaining : ℚ)
    (taskType urgency : String) : ℚ :=
  let qualityScore := model.qualityScore
  let specializationBonus : ℚ := if taskType ∈ model.specialization then 0.1 else 0
  let complexityMatch := 1 - |model.qualityScore - qualityRequirement|
  let estimatedCost := estimateTaskCost model taskComplexity
  let costPenalty : ℚ :=
    if model.requiresApiKey ∧ budgetRemaining > 0 then
      (if estimatedCost / budgetRemaining > 0.5 then estimatedCost / budgetRemaining * 0.3
       else 0)
    else if model.requiresApiKey ∧ budgetRemaining ≤ 0 then 1
    else 0
  let speedBonus : ℚ := if urgency = "high" then model.speedScore * 0.1 else 0
  let availabilityScore : ℚ :=
    if model.requiresApiKey ∧ ¬env.apiKeyPresent then 0
    else if model.tier = ModelTier.localFree ∧ ¬env.ollamaAvailable then 0
    else 1
  let historicalBonus := historicalPerformanceBonus hist model.name taskType
  max 0 ((qualityScore + specializationBonus + complexityMatch + speedBonus +
    historicalBonus - costPenalty) * availabilityScore)

/-- Python max(items, key=lambda x: x[1])[0] over a nonempty list: the first
item attaining the maximal score. -/
def argmaxFirst (best : String × ℚ) : List (String × ℚ) → String
  | [] => best.1
  | p :: ps => if p.2 > best.2 then argmaxFirst p ps else argmaxFirst best ps

/-- Embeds HybridModelStrategy.select_model: score every model of the
fallback chain that exists in the catalog, keep the strictly positive
scores, and pick the first maximal one; with no viable model return
fallback_chain[0], or the hardcoded ollama/llama3.2 when the chain is
empty. -/
def selectModel (env : StrategyEnv) (hist : HistoryData)
    (taskComplexity qualityRequirement budgetRemaining : ℚ)
    (taskType urgency : String) : String :=
  let chain := buildFallbackChain env
  let modelScores := (chain.filterMap (fun n =>
      (initializeModelConfigs.find? (fun p => decide (p.1 = n))).map (fun p =>
        (n, calculateModelScore env hist p.2 taskComplexity qualityRequirement
          budgetRemaining taskType urgency)))).filter (fun p => decide (p.2 > 0))
  match modelScores with
  | [] => chain.headD "ollama/llama3.2"
  | p :: ps => argmaxFirst p ps

/-! ### Concrete cache states used by the witnesses -/

/-- A cache line with the given signature, hit count and timestamp (empty
inputs, model m). -/
def wEntry (sig : String) (hit : ℕ) (ts : ℚ) : CacheKey × CacheEntry :=
  (generateCacheKey sig [] "m",
    { key := generateCacheKey sig [] "m", signature := sig, inputs := [],
      outputs := [], model := "m", timestamp := ts, success := true,
      executionTime := 0, hitCount := hit })

/-- A five-entry cache at capacity max_entries = 5, holding a much-used
entry (hit count 10), a same-timestamp unused entry, and three filler
entries. -/
def wCache : List (CacheKey × CacheEntry) :=
  [wEntry "sa" 10 9, wEntry "sb" 0 9, wEntry "s1" 0 1, wEntry "s2" 0 2, wEntry "s5" 3 0]

/-- An already-present cache line under the key of signature s with five
accumulated hits. -/
def oldEntryW : CacheKey × CacheEntry :=
  (generateCacheKey "s" [] "m",
    { key := generateCacheKey "s" [] "m", signature := "s", inputs := [],
      outputs := [("o", Value.vBool true)], model := "m", timestamp := 1,
      success := true, executionTime := 0, hitCount := 5 })

/-! ## Helper lemmas -/

theorem escRun_length (oracle : ℕ → Bool × Bool) :
    ∀ count fuel level, (escRun oracle count fuel level).length ≤ fuel + 1 := by
  intro count fuel
  induction fuel generalizing count with
  | zero => intro level; simp [escRun]
  | succ n ih =>
    intro level
    unfold escRun
    by_cases h1 : (oracle count).1
    · simp only [h1, if_true]
      cases hn : getNextLevel level with
      | some next =>
        by_cases h2 : (oracle count).2
        · simp only [h2, if_true, List.length_cons]
          exact Nat.succ_le_succ (ih (count + 1) next)
        · simp [h2]
      | none => simp
    · simp [h1]

theorem escRun_chain (oracle : ℕ → Bool × Bool) :
    ∀ count fuel level,
      List.Chain' (fun a b => getNextLevel a = some b) (escRun oracle count fuel level) := by
  intro count fuel
  induction fuel generalizing count with
  | zero => intro level; simp [escRun]
  | succ n ih =>
    intro level
    unfold escRun
    by_cases h1 : (oracle count).1
    · simp only [h1, if_true]
      cases hn : getNextLevel level with
      | some next =>
        by_cases h2 : (oracle count).2
        · simp only [h2, if_true]
          refine List.chain'_cons'.mpr ⟨?_, ih (count + 1) next⟩
          intro y hy
          cases n with
          | zero => simp [escRun] at hy; simpa [hy] using hn
          | succ m =>
            unfold escRun at hy
            by_cases hb1 : (oracle (count + 1)).1
            · simp only [hb1, if_true] at hy
              cases hm : getNextLevel next with
              | some nn =>
                simp only [hm] at hy
                by_cases hb2 : (oracle (count + 1)).2
                · simp only [hb2, if_true] at hy
                  simp at hy
                  simpa [hy] using hn
                · simp only [hb2, if_false] at hy
                  simp at hy
                  simpa [hy] using hn
              | none =>
                simp only [hm] at hy
                simp at hy
                simpa [hy] using hn
            · simp only [hb1, if_false] at hy
              simp at hy
              simpa [hy] using hn
        · simp [h2]
      | none => simp
    · simp [h1]

theorem getNextLevel_idx_lt {a b : ExecutionLevel} (h : getNextLevel a = some b) :
    levelIdx a < levelIdx b := by
  cases a <;> cases b <;> simp_all [getNextLevel, levelIdx]

/-! ## Claim C1 -/

/-- C1 counterexample.  The claim states that can_afford_task answers true
exactly when current_cost + estimatedCost is at most daily_budget, in every
reachable ledger state including overspent ones.  The overspent state reached
by recording a 2-dollar spend against a 1-dollar budget refutes it at
estimatedCost 0: can_afford_task answers true while 2 + 0 is not at most 1. -/
theorem canAffordTask_overspent_cex :
    canAffordTask (recordUsage ⟨1, []⟩ "2026-01-02" 2) "2026-01-02" 0 = true ∧
    ¬(lookupDailyCost (recordUsage ⟨1, []⟩ "2026-01-02" 2).dailyCosts "2026-01-02" + 0 ≤
        (recordUsage ⟨1, []⟩ "2026-01-02" 2).dailyBudget) := by
  with_unfolding_all decide

/-- C1 (amended).  can_afford_task answers true exactly when the cost is at
most RemainingBudget = max(0, daily_budget - current_cost); the alternative
formulation current_cost + cost <= daily_budget coincides with it on every
ledger state whose recorded cost does not already exceed the budget, but not
in overspent states at cost 0. -/
theorem canAffordTask_spec (t : CostTracker) (today : String) (c : ℚ)
    (h : lookupDailyCost t.dailyCosts today ≤ t.dailyBudget) :
    (canAffordTask t today c = true ↔ c ≤ getRemainingBudget t today) ∧
    (canAffordTask t today c = true ↔
      lookupDailyCost t.dailyCosts today + c ≤ t.dailyBudget) := by
  refine ⟨by simp [canAffordTask], ?_⟩
  have hmax : getRemainingBudget t today = t.dailyBudget - lookupDailyCost t.dailyCosts today := by
    unfold getRemainingBudget
    exact max_eq_right (by linarith)
  simp only [canAffordTask, hmax, decide_eq_true_eq]
  constructor
  · intro hc; linarith
  · intro hc; linarith

/-- C1 witness: the amended equivalence evaluated on a ledger holding a
1-dollar spend against a 3-dollar budget. -/
theorem canAffordTask_spec_witness :
    (canAffordTask ⟨3, [("2026-01-02", 1)]⟩ "2026-01-02" 1 = true ↔
      (1 : ℚ) ≤ getRemainingBudget ⟨3, [("2026-01-02", 1)]⟩ "2026-01-02") ∧
    (canAffordTask ⟨3, [("2026-01-02", 1)]⟩ "2026-01-02" 1 = true ↔
      lookupDailyCost [("2026-01-02", 1)] "2026-01-02" + 1 ≤ (3 : ℚ)) :=
  canAffordTask_spec ⟨3, [("2026-01-02", 1)]⟩ "2026-01-02" 1 (by decide)

/-! ## Claim C8 -/

/-- C8: on the first ledger operation after the stored last_reset differs
from the current date, the tracker resets current_cost and calls_made to
zero and stamps the new date, leaving daily_budget unchanged; the reset
happens exactly once (a second rollover check on the same day is the
identity), and the read (can_make_call) and the write (add_cost) are served
against the reset state. -/
theorem engineTracker_day_rollover (t : EngineCostTracker) (today : String) (c : ℚ)
    (h : t.lastReset ≠ today) :
    (resetIfNewDay today t).currentCost = 0 ∧
    (resetIfNewDay today t).callsMade = 0 ∧
    (resetIfNewDay today t).dailyBudget = t.dailyBudget ∧
    (resetIfNewDay today t).lastReset = today ∧
    resetIfNewDay today (resetIfNewDay today t) = resetIfNewDay today t ∧
    (canMakeCall today t c).1 = decide (0 + c ≤ t.dailyBudget) ∧
    (addCost today t c).currentCost = 0 + c ∧
    (addCost today t c).callsMade = 1 := by
  simp [resetIfNewDay, canMakeCall, addCost, h]

/-- C8 witness: day rollover evaluated on a tracker last reset yesterday. -/
theorem engineTracker_day_rollover_witness :
    (resetIfNewDay "2026-01-02" ⟨1, 1/2, "2026-01-01", 3⟩).currentCost = 0 ∧
    (resetIfNewDay "2026-01-02" ⟨1, 1/2, "2026-01-01", 3⟩).callsMade = 0 ∧
    (resetIfNewDay "2026-01-02" ⟨1, 1/2, "2026-01-01", 3⟩).dailyBudget = 1 ∧
    (resetIfNewDay "2026-01-02" ⟨1, 1/2, "2026-01-01", 3⟩).lastReset = "2026-01-02" ∧
    resetIfNewDay "2026-01-02" (resetIfNewDay "2026-01-02" ⟨1, 1/2, "2026-01-01", 3⟩) =
      resetIfNewDay "2026-01-02" ⟨1, 1/2, "2026-01-01", 3⟩ ∧
    (canMakeCall "2026-01-02" ⟨1, 1/2, "2026-01-01", 3⟩ (1/4)).1 = decide ((0 : ℚ) + 1/4 ≤ 1) ∧
    (addCost "2026-01-02" ⟨1, 1/2, "2026-01-01", 3⟩ (1/4)).currentCost = 0 + 1/4 ∧
    (addCost "2026-01-02" ⟨1, 1/2, "2026-01-01", 3⟩ (1/4)).callsMade = 1 :=
  engineTracker_day_rollover ⟨1, 1/2, "2026-01-01", 3⟩ "2026-01-02" (1/4) (by decide)

/-! ## Claim C3 -/

/-- C3: in every run of execute_with_escalation, the sequence of attempted
tiers is pairwise non-decreasing in the Quick < Detailed < Comprehensive
order, and the number of tier attempts is at most max_escalations + 1. -/
theorem escalation_monotone (maxEsc : ℕ) (oracle : ℕ → Bool × Bool)
    (taskType urgency : String) (q : ℚ) :
    List.Pairwise (fun a b => levelIdx a ≤ levelIdx b)
      (executeWithEscalation maxEsc oracle taskType urgency q) ∧
    (executeWithEscalation maxEsc oracle taskType urgency q).length ≤ maxEsc + 1 := by
  unfold executeWithEscalation
  cases levelOfString (determineInitialComplexity taskType urgency q) with
  | some l =>
    constructor
    · have hc := (escRun_chain oracle 0 maxEsc l).imp
        (fun a b h => getNextLevel_idx_lt h)
      have hp := List.chain'_iff_pairwise.mp hc
      exact hp.imp (fun h => Nat.le_of_lt h)
    · exact escRun_length oracle 0 maxEsc l
  | none => simp

/-! ## Claim C4 -/

/-- C4 counterexample.  The claim states that an analyze task with urgency
high and quality requirement 0.7 starts at the Comprehensive tier; the
source tests the analyze/review branch first, so the run starts at
quick_scan. -/
theorem initialComplexity_cex :
    determineInitialComplexity "analyze" "high" 0.7 = "quick_scan" ∧
    determineInitialComplexity "analyze" "high" 0.7 ≠ "comprehensive_solution" ∧
    (executeWithEscalation 2 (fun _ => (false, false)) "analyze" "high" 0.7).head? =
      some ExecutionLevel.quickScan := by
  with_unfolding_all decide

/-- C4 (amended).  The initial tier is chosen with the analyze/review test
first: if taskType is analyze or review and qualityRequirement < 0.8 the run
starts at Quick; otherwise if urgency is high or qualityRequirement > 0.9 it
starts at Comprehensive; otherwise at Detailed.  In particular an analyze
task with urgency high and quality requirement 0.7 starts at Quick. -/
theorem determineInitialComplexity_spec (taskType urgency : String) (q : ℚ) :
    ((taskType = "analyze" ∨ taskType = "review") ∧ q < 0.8 →
      determineInitialComplexity taskType urgency q = "quick_scan") ∧
    (¬((taskType = "analyze" ∨ taskType = "review") ∧ q < 0.8) →
      (urgency = "high" ∨ q > 0.9) →
      determineInitialComplexity taskType urgency q = "comprehensive_solution") ∧
    (¬((taskType = "analyze" ∨ taskType = "review") ∧ q < 0.8) →
      ¬(urgency = "high" ∨ q > 0.9) →
      determineInitialComplexity taskType urgency q = "detailed_analysis") := by
  unfold determineInitialComplexity
  exact ⟨fun h => by simp [h], fun h1 h2 => by simp [h1, h2], fun h1 h2 => by simp [h1, h2]⟩

/-- C4 witness: the first branch evaluated at the analyze task of the
counterexample. -/
theorem determineInitialComplexity_spec_witness :
    determineInitialComplexity "analyze" "high" 0.7 = "quick_scan" :=
  (determineInitialComplexity_spec "analyze" "high" 0.7).1
    ⟨Or.inl rfl, by with_unfolding_all decide⟩

/-! ## Claim C5 -/

/-- C5 (the code evaluated at the failing input): when the task executor
raises during a quick_scan attempt against a fresh 3-dollar ledger, the
returned failure result carries the minimal cost 0.01, yet the ledger is
returned unchanged: no record_usage call happens and the recorded daily cost
stays 0 instead of increasing by at least 0.01. -/
theorem failedAttempt_records_no_spend :
    (executeAtLevel ⟨3, []⟩ "2026-01-02" .quickScan .raised).1 = ⟨3, []⟩ ∧
    (executeAtLevel ⟨3, []⟩ "2026-01-02" .quickScan .raised).2.cost = 0.01 ∧
    lookupDailyCost (executeAtLevel ⟨3, []⟩ "2026-01-02" .quickScan .raised).1.dailyCosts
      "2026-01-02" = 0 := by
  with_unfolding_all decide

/-! ## Claim C7 -/

theorem splitWsAux_ws_run (w : List Char) (hw : ∀ c ∈ w, isPySpace c = true) :
    ∀ s, splitWsAux (w ++ s) [] = splitWsAux s [] := by
  induction w with
  | nil => intro s; rfl
  | cons c cs ih =>
    intro s
    have hc : isPySpace c = true := hw c (by simp)
    simp only [List.cons_append, splitWsAux, hc, if_true, List.isEmpty_nil]
    exact ih (fun x hx => hw x (by simp [hx])) s

theorem splitWsAux_ws_nil (w : List Char) (hw : ∀ c ∈ w, isPySpace c = true) :
    splitWsAux w [] = [] := by
  have h := splitWsAux_ws_run w hw []
  simpa [splitWsAux] using h

theorem splitWsAux_token (t : List Char) (ht : ∀ c ∈ t, isPySpace c = false) :
    ∀ acc s, splitWsAux (t ++ s) acc = splitWsAux s (t.reverse ++ acc) := by
  induction t with
  | nil => intro acc s; simp
  | cons c cs ih =>
    intro acc s
    have hc : isPySpace c = false := ht c (by simp)
    simp only [List.cons_append, splitWsAux, hc, Bool.false_eq_true, if_false,
      List.append_eq]
    rw [ih (fun x hx => ht x (by simp [hx])) (c :: acc) s]
    simp

theorem splitWsAux_ws_end (w : List Char) (hw : ∀ c ∈ w, isPySpace c = true) :
    ∀ acc, acc ≠ [] → splitWsAux w acc = [acc.reverse] := by
  induction w with
  | nil =>
    intro acc h
    have hacc : acc.isEmpty = false := by
      cases acc with
      | nil => exact absurd rfl h
      | cons x xs => rfl
    simp [splitWsAux, hacc]
  | cons c cs ih =>
    intro acc h
    have hc : isPySpace c = true := hw c (by simp)
    have hacc : acc.isEmpty = false := by
      cases acc with
      | nil => exact absurd rfl h
      | cons x xs => rfl
    simp only [splitWsAux, hc, if_true, hacc, Bool.false_eq_true, if_false]
    rw [splitWsAux_ws_nil cs (fun x hx => hw x (by simp [hx]))]

theorem splitWs_assemble :
    ∀ (parts : List (List Char × List Char)) (lead : List Char),
      (∀ c ∈ lead, isPySpace c = true) →
      (∀ p ∈ parts,
        p.1 ≠ [] ∧ (∀ c ∈ p.1, isPySpace c = false) ∧ (∀ c ∈ p.2, isPySpace c = true)) →
      (∀ p ∈ parts.dropLast, p.2 ≠ []) →
      splitWs (assemble lead parts) = parts.map Prod.fst := by
  intro parts
  induction parts with
  | nil =>
    intro lead hlead _ _
    simpa [assemble, splitWs] using splitWsAux_ws_nil lead hlead
  | cons p ps ih =>
    intro lead hlead hp hsep
    obtain ⟨hne, htok, hws⟩ := hp p (by simp)
    unfold splitWs
    have hasm : assemble lead (p :: ps) = lead ++ (p.1 ++ assemble p.2 ps) := by
      simp [assemble, List.append_assoc]
    rw [hasm, splitWsAux_ws_run lead hlead, splitWsAux_token p.1 htok []]
    have haccne : p.1.reverse ++ [] ≠ [] := by
      simpa using hne
    cases ps with
    | nil =>
      rw [show assemble p.2 ([] : List (List Char × List Char)) = p.2 from rfl]
      rw [splitWsAux_ws_end p.2 hws _ haccne]
      simp
    | cons q qs =>
      have hsepne : p.2 ≠ [] := hsep p (by simp)
      obtain ⟨c, sr, hcs⟩ := List.exists_cons_of_ne_nil hsepne
      have hc : isPySpace c = true := hws c (by simp [hcs])
      have hstep : assemble p.2 (q :: qs) = c :: assemble sr (q :: qs) := by
        rw [hcs]
        simp [assemble]
      rw [hstep]
      have hacc : (p.1.reverse ++ []).isEmpty = false := by
        cases hx : p.1.reverse ++ [] with
        | nil => exact absurd hx haccne
        | cons y ys => rfl
      simp only [splitWsAux, hc, if_true, hacc, Bool.false_eq_true, if_false]
      rw [show splitWsAux (assemble sr (q :: qs)) [] = splitWs (assemble sr (q :: qs)) from rfl]
      rw [ih sr (fun x hx => hws x (by simp [hcs, hx])) (fun r hr => hp r (by simp [hr]))
        (fun r hr => hsep r (by simp at hr ⊢; exact Or.inr hr))]
      simp

/-- C7: cache key computation is a pure deterministic function of
(signature, inputs, backend): (i) a string assembled from arbitrary
whitespace paddings around a fixed token list normalises to the canonical
single-space join of those tokens, so two strings differing only in leading
or trailing whitespace or in the length of internal whitespace runs
normalise identically; (ii) normalisation never alters a non-string value;
(iii) two input maps whose keys agree and whose values agree up to
whitespace yield identical cache keys. -/
theorem cacheKey_whitespace_invariant :
    (∀ (parts : List (List Char × List Char)) (lead : List Char),
      (∀ c ∈ lead, isPySpace c = true) →
      (∀ p ∈ parts,
        p.1 ≠ [] ∧ (∀ c ∈ p.1, isPySpace c = false) ∧ (∀ c ∈ p.2, isPySpace c = true)) →
      (∀ p ∈ parts.dropLast, p.2 ≠ []) →
      normalizeString (assemble lead parts) = joinSpace (parts.map Prod.fst)) ∧
    (∀ v : Value, v.isStr = false → normalizeValue v = v) ∧
    (∀ (signature model : String) (inputs1 inputs2 : List (String × Value)),
      List.Forall₂ (fun p q => p.1 = q.1 ∧ valueWsEquiv p.2 q.2) inputs1 inputs2 →
      generateCacheKey signature inputs1 model = generateCacheKey signature inputs2 model) := by
  refine ⟨?_, ?_, ?_⟩
  · intro parts lead h1 h2 h3
    unfold normalizeString
    rw [splitWs_assemble parts lead h1 h2 h3]
  · intro v hv
    cases v with
    | vStr s => simp [Value.isStr] at hv
    | vNum q => rfl
    | vBool b => rfl
  · intro signature model inputs1 inputs2 h
    have hnorm : normalizeInputs inputs1 = normalizeInputs inputs2 := by
      induction h with
      | nil => rfl
      | @cons a b l1 l2 h1 h2 ih =>
        obtain ⟨hk, hv⟩ := h1
        have hval : normalizeValue a.2 = normalizeValue b.2 := by
          rcases ha : a.2 with s1 | q1 | b1 <;> rcases hb : b.2 with s2 | q2 | b2 <;>
            rw [ha, hb] at hv <;>
            simp_all [valueWsEquiv, normalizeValue, normalizeString]
        simp only [normalizeInputs, List.map_cons] at ih ⊢
        rw [hk, hval, ih]
    unfold generateCacheKey
    rw [hnorm]

/-- C7 witness: the collapse theorem evaluated on the assembly of tokens a
and b with extra whitespace; a numeric value left untouched; and two
concrete input maps differing only in whitespace yielding the same key. -/
theorem cacheKey_whitespace_invariant_witness :
    normalizeString (assemble [' '] [(['a'], [' ', ' ']), (['b'], [' '])]) =
      joinSpace [['a'], ['b']] ∧
    normalizeValue (Value.vNum 3) = Value.vNum 3 ∧
    generateCacheKey "sig"
        [("text", Value.vStr [' ', 'a', ' ', ' ', 'b']), ("n", Value.vNum 3)] "m" =
      generateCacheKey "sig"
        [("text", Value.vStr ['a', ' ', 'b']), ("n", Value.vNum 3)] "m" :=
  ⟨cacheKey_whitespace_invariant.1 [(['a'], [' ', ' ']), (['b'], [' '])] [' ']
      (by decide) (by decide) (by decide),
   cacheKey_whitespace_invariant.2.1 (Value.vNum 3) rfl,
   cacheKey_whitespace_invariant.2.2 "sig" "m" _ _
     (List.Forall₂.cons ⟨rfl, rfl⟩ (List.Forall₂.cons ⟨rfl, rfl⟩ List.Forall₂.nil))⟩

/-! ## Claim C10 -/

/-- C10: putting a key that is already present in the cache replaces the
stored pair in place by the freshly constructed entry, whose hit_count is
the dataclass default 0 and whose timestamp is the new insertion time; hit
counts accumulated by earlier gets on that key are discarded. -/
theorem put_existing_key_resets (maxEntries : ℕ) (signature : String)
    (inputs outputs : List (String × Value)) (model : String)
    (now executionTime : ℚ) (success : Bool) (cache : List (CacheKey × CacheEntry))
    (hk : cache.any (fun p => decide (p.1 = generateCacheKey signature inputs model)) = true)
    (hlen : cache.length ≤ maxEntries) :
    putCache maxEntries signature inputs outputs model now executionTime success cache =
      cache.map (fun p =>
        if p.1 = generateCacheKey signature inputs model then
          mkEntry signature inputs outputs model now executionTime success
        else p) ∧
    (mkEntry signature inputs outputs model now executionTime success).2.hitCount = 0 ∧
    (mkEntry signature inputs outputs model now executionTime success).2.timestamp = now := by
  refine ⟨?_, rfl, rfl⟩
  have hfst : (mkEntry signature inputs outputs model now executionTime success).1 =
      generateCacheKey signature inputs model := rfl
  unfold putCache
  simp only [hfst, dictInsert, hk, if_true]
  rw [List.length_map]
  rw [if_neg (by omega)]
  rfl

/-- C10 witness: re-putting the key of oldEntryW replaces it by the fresh
zero-hit entry stamped with the new time 2. -/
theorem put_existing_key_resets_witness :
    putCache 10 "s" [] [] "m" 2 0 true [oldEntryW] =
      [oldEntryW].map (fun p =>
        if p.1 = generateCacheKey "s" [] "m" then mkEntry "s" [] [] "m" 2 0 true else p) ∧
    (mkEntry "s" [] [] "m" 2 0 true).2.hitCount = 0 ∧
    (mkEntry "s" [] [] "m" 2 0 true).2.timestamp = 2 :=
  put_existing_key_resets 10 "s" [] [] "m" 2 0 true [oldEntryW] (by decide) (by decide)

/-! ## Claim C6 -/

/-- C6 counterexample.  The claim, read at configuration max_entries = 1,
fails: inserting two distinct keys leaves both entries, because keep_count =
int(1 * 0.8) = 0 and the Python slice entries[-0:] keeps the whole list, so
the population stays 2, which is not at most 0.8 * 1. -/
theorem eviction_cex :
    (putCache 1 "b" [] [] "m" 2 0 true (putCache 1 "a" [] [] "m" 1 0 true [])).length = 2 ∧
    ¬(((putCache 1 "b" [] [] "m" 2 0 true
        (putCache 1 "a" [] [] "m" 1 0 true [])).length : ℚ) ≤ ((1 : ℕ) : ℚ) * 0.8) := by
  with_unfolding_all decide

theorem cleanup_general (maxEntries : ℕ) (c2 : List (CacheKey × CacheEntry))
    (a b : CacheKey × CacheEntry)
    (hmax : 2 ≤ maxEntries) (hover : c2.length > maxEntries)
    (ha : a ∈ c2) (hahit : a.2.hitCount = 10) (hbhit : b.2.hitCount = 0)
    (hbkept : b ∈ cleanupCache maxEntries c2) :
    (cleanupCache maxEntries c2).length = keepCount maxEntries ∧
    ((cleanupCache maxEntries c2).length : ℚ) ≤ (maxEntries : ℚ) * 0.8 ∧
    a ∈ cleanupCache maxEntries c2 := by
  have hnotle : ¬((c2.length : ℚ) ≤ (maxEntries : ℚ) * 0.8) := by
    have h08 : (0.8 : ℚ) = 4/5 := by norm_num
    rw [h08]
    push_neg
    have hlen : (maxEntries : ℚ) < (c2.length : ℚ) := by exact_mod_cast hover
    have hm0 : (0 : ℚ) ≤ (maxEntries : ℚ) := by positivity
    nlinarith
  have hclean : cleanupCache maxEntries c2 =
      pythonSliceLast (keepCount maxEntries) (List.insertionSort entryRankLe c2) := by
    unfold cleanupCache
    rw [if_neg hnotle]
  rw [hclean] at hbkept ⊢
  have hperm : (List.insertionSort entryRankLe c2).Perm c2 := List.perm_insertionSort _ _
  have hslen : (List.insertionSort entryRankLe c2).length = c2.length := hperm.length_eq
  have hkeep5 : keepCount maxEntries * 5 ≤ 4 * maxEntries := Nat.div_mul_le_self _ _
  have hkeep_le : keepCount maxEntries ≤ maxEntries := by omega
  have hkeep_pos : 1 ≤ keepCount maxEntries := by
    unfold keepCount
    exact (Nat.le_div_iff_mul_le (by norm_num)).mpr (by omega)
  have hslice : pythonSliceLast (keepCount maxEntries) (List.insertionSort entryRankLe c2) =
      (List.insertionSort entryRankLe c2).drop
        ((List.insertionSort entryRankLe c2).length - keepCount maxEntries) := by
    unfold pythonSliceLast
    rw [if_neg (by omega)]
  rw [hslice] at hbkept ⊢
  have hlenres : ((List.insertionSort entryRankLe c2).drop
      ((List.insertionSort entryRankLe c2).length - keepCount maxEntries)).length =
      keepCount maxEntries := by
    rw [List.length_drop]
    omega
  refine ⟨hlenres, ?_, ?_⟩
  · rw [hlenres]
    have h08 : (0.8 : ℚ) = 4/5 := by norm_num
    rw [h08]
    have hc : ((keepCount maxEntries * 5 : ℕ) : ℚ) ≤ ((4 * maxEntries : ℕ) : ℚ) := by
      exact_mod_cast hkeep5
    push_cast at hc
    linarith
  · have hasort : a ∈ List.insertionSort entryRankLe c2 := hperm.mem_iff.mpr ha
    have hpw : List.Pairwise entryRankLe (List.insertionSort entryRankLe c2) :=
      List.sorted_insertionSort entryRankLe c2
    set s := List.insertionSort entryRankLe c2 with hs
    set n := s.length - keepCount maxEntries with hn
    have hsplit : s.take n ++ s.drop n = s := List.take_append_drop n s
    have hmem : a ∈ s.take n ++ s.drop n := by rw [hsplit]; exact hasort
    have hpw2 : List.Pairwise entryRankLe (s.take n ++ s.drop n) := by
      rw [hsplit]; exact hpw
    rcases List.mem_append.mp hmem with hin | hin
    · exfalso
      obtain ⟨h1, h2, hcross⟩ := List.pairwise_append.mp hpw2
      have hr := hcross a hin b hbkept
      rcases hr with h | ⟨h, _⟩
      · omega
      · omega
    · exact hin

/-- C6 (amended): provided max_entries is at least 2, a put that lifts the
population above max_entries triggers eviction, which ranks all entries
ascending by (hit_count, created_at) and keeps exactly keep_count =
int(0.8 * max_entries) entries — a number at most 0.8 * max_entries — as a
suffix of that ranking; consequently whenever a hit_count-0 entry survives,
every hit_count-10 entry with the same timestamp survives as well.  For
max_entries at most 1 the computed keep_count is 0 and the Python slice
entries[-0:] keeps every entry, so no eviction happens (the
counterexample). -/
theorem put_eviction_spec (maxEntries : ℕ) (signature : String)
    (inputs outputs : List (String × Value)) (model : String) (now executionTime : ℚ)
    (success : Bool) (cache : List (CacheKey × CacheEntry)) (a b : CacheKey × CacheEntry)
    (hmax : 2 ≤ maxEntries)
    (hover : (dictInsert (generateCacheKey signature inputs model)
        (mkEntry signature inputs outputs model now executionTime success).2 cache).length >
        maxEntries)
    (ha : a ∈ dictInsert (generateCacheKey signature inputs model)
        (mkEntry signature inputs outputs model now executionTime success).2 cache)
    (hahit : a.2.hitCount = 10) (hbhit : b.2.hitCount = 0)
    (hts : a.2.timestamp = b.2.timestamp)
    (hbkept : b ∈
      putCache maxEntries signature inputs outputs model now executionTime success cache) :
    (putCache maxEntries signature inputs outputs model now executionTime
        success cache).length = keepCount maxEntries ∧
    ((putCache maxEntries signature inputs outputs model now executionTime
        success cache).length : ℚ) ≤ (maxEntries : ℚ) * 0.8 ∧
    a ∈ putCache maxEntries signature inputs outputs model now executionTime success cache := by
  have hput : putCache maxEntries signature inputs outputs model now executionTime success cache =
      cleanupCache maxEntries (dictInsert (generateCacheKey signature inputs model)
        (mkEntry signature inputs outputs model now executionTime success).2 cache) := by
    have hfst : (mkEntry signature inputs outputs model now executionTime success).1 =
        generateCacheKey signature inputs model := rfl
    unfold putCache
    simp only [hfst]
    rw [if_pos hover]
  rw [hput] at hbkept ⊢
  exact cleanup_general maxEntries _ a b hmax hover ha hahit hbhit hbkept

/-- C6 witness: the amended eviction behaviour on a capacity-5 cache holding
five distinct keys when a sixth distinct key is inserted: exactly 4 =
int(0.8 * 5) entries remain and the hit-count-10 entry survives together
with the same-timestamp hit-count-0 entry. -/
theorem put_eviction_spec_witness :
    (putCache 5 "s6" [] [] "m" 10 0 true wCache).length = keepCount 5 ∧
    ((putCache 5 "s6" [] [] "m" 10 0 true wCache).length : ℚ) ≤ ((5 : ℕ) : ℚ) * 0.8 ∧
    wEntry "sa" 10 9 ∈ putCache 5 "s6" [] [] "m" 10 0 true wCache :=
  put_eviction_spec 5 "s6" [] [] "m" 10 0 true wCache (wEntry "sa" 10 9) (wEntry "sb" 0 9)
    (by decide) (by decide) (by decide) (by decide) (by decide) (by decide)
    (by with_unfolding_all decide)

/-! ## Claim C2 -/

/-- C2 counterexample.  With the API key present, Ollama absent, zero
remaining budget, task type code and quality requirement 1, claude-3-opus
requires payment yet its composite score is 1.06, not 0 (only the flat 1.0
penalty was subtracted), and select_model picks it over
gemini-2.0-flash-lite-001 whose score is the positive 0.6. -/
theorem paidBackend_zeroBudget_cex :
    opusConfig.requiresApiKey = true ∧
    calculateModelScore ⟨true, false⟩ emptyHistory opusConfig 0.5 1 0 "code" "normal" = 1.06 ∧
    calculateModelScore ⟨true, false⟩ emptyHistory opusConfig 0.5 1 0 "code" "normal" ≠ 0 ∧
    calculateModelScore ⟨true, false⟩ emptyHistory geminiFlashLiteConfig 0.5 1 0
      "code" "normal" > 0 ∧
    selectModel ⟨true, false⟩ emptyHistory 0.5 1 0 "code" "normal" =
      "anthropic/claude-3-opus" := by
  with_unfolding_all decide

/-- C2 (amended): for a backend that requires payment, a nonpositive
remaining budget sets cost_penalty to the flat 1.0, which is subtracted from
the additive components before the availability gate and the clamp at zero;
the whole score is not forced to 0, so such a backend can keep a positive
score and win the selection over positive-score candidates. -/
theorem paidBackend_zeroBudget_penalty (env : StrategyEnv) (hist : HistoryData)
    (model : ModelConfig) (c q B : ℚ) (taskType urgency : String)
    (hkey : model.requiresApiKey = true) (hbudget : B ≤ 0) :
    calculateModelScore env hist model c q B taskType urgency =
      max 0 ((model.qualityScore +
        (if taskType ∈ model.specialization then (0.1 : ℚ) else 0) +
        (1 - |model.qualityScore - q|) +
        (if urgency = "high" then model.speedScore * 0.1 else 0) +
        historicalPerformanceBonus hist model.name taskType - 1) *
        (if model.requiresApiKey ∧ ¬env.apiKeyPresent then 0
         else if model.tier = ModelTier.localFree ∧ ¬env.ollamaAvailable then 0 else 1)) := by
  have h1 : ¬(model.requiresApiKey = true ∧ B > 0) := by
    rintro ⟨hx, hb⟩
    linarith
  simp only [calculateModelScore]
  rw [if_neg h1, if_pos (show model.requiresApiKey = true ∧ B ≤ 0 from ⟨hkey, hbudget⟩)]

/-- C2 witness: the amended penalty equation evaluated at claude-3-opus with
zero remaining budget. -/
theorem paidBackend_zeroBudget_penalty_witness :
    calculateModelScore ⟨true, false⟩ emptyHistory opusConfig 0.5 1 0 "code" "normal" =
      max 0 ((opusConfig.qualityScore +
        (if "code" ∈ opusConfig.specialization then (0.1 : ℚ) else 0) +
        (1 - |opusConfig.qualityScore - 1|) +
        (if "normal" = "high" then opusConfig.speedScore * 0.1 else 0) +
        historicalPerformanceBonus emptyHistory opusConfig.name "code" - 1) *
        (if opusConfig.requiresApiKey ∧ ¬(⟨true, false⟩ : StrategyEnv).apiKeyPresent then 0
         else if opusConfig.tier = ModelTier.localFree ∧
             ¬(⟨true, false⟩ : StrategyEnv).ollamaAvailable then 0
         else 1)) :=
  paidBackend_zeroBudget_penalty ⟨true, false⟩ emptyHistory opusConfig 0.5 1 0
    "code" "normal" rfl (by decide)

/-! ## Claim C9 -/

/-- C9 counterexample.  With neither the API key nor Ollama available the
fallback chain is empty, and select_model does not fail with a
NoBackendAvailable error: it returns the hardcoded backend id
ollama/llama3.2, an entry of the model catalog. -/
theorem emptyChain_cex :
    buildFallbackChain ⟨false, false⟩ = [] ∧
    selectModel ⟨false, false⟩ emptyHistory 0.5 0.8 1 "code" "normal" = "ollama/llama3.2" ∧
    (initializeModelConfigs.map Prod.fst).contains "ollama/llama3.2" = true := by
  with_unfolding_all decide

/-- C9 (amended): when no candidate of the fallback chain is assigned a
strictly positive score, select_model returns the first entry of the chain;
when the chain is empty it does not fail with NoBackendAvailable but returns
the hardcoded default backend id ollama/llama3.2. -/
theorem selectModel_no_viable (env : StrategyEnv) (hist : HistoryData)
    (c q B : ℚ) (taskType urgency : String)
    (h : ∀ n ∈ buildFallbackChain env, ∀ p ∈ initializeModelConfigs, p.1 = n →
      ¬(calculateModelScore env hist p.2 c q B taskType urgency > 0)) :
    selectModel env hist c q B taskType urgency =
      (buildFallbackChain env).headD "ollama/llama3.2" := by
  simp only [selectModel]
  have hfilter : ((buildFallbackChain env).filterMap (fun n =>
      (initializeModelConfigs.find? (fun p => decide (p.1 = n))).map (fun p =>
        (n, calculateModelScore env hist p.2 c q B taskType urgency)))).filter
        (fun p => decide (p.2 > 0)) = [] := by
    rw [List.filter_eq_nil_iff]
    intro x hx
    obtain ⟨n, hn, hfm⟩ := List.mem_filterMap.mp hx
    cases hfind : initializeModelConfigs.find? (fun p => decide (p.1 = n)) with
    | none =>
      rw [hfind] at hfm
      simp at hfm
    | some pc =>
      rw [hfind] at hfm
      have hx2 : x = (n, calculateModelScore env hist pc.2 c q B taskType urgency) := by
        simpa using hfm.symm
      have hmem := List.mem_of_find?_eq_some hfind
      have heq : pc.1 = n := by
        have hp := List.find?_some hfind
        simpa using hp
      have hscore := h n hn pc hmem heq
      rw [hx2]
      simpa using hscore
  rw [hfilter]

/-- C9 witness: with Ollama available, no API key, and a quality requirement
of 5 that drives every complexity-match term far negative, every candidate
scores 0 and select_model returns the chain head ollama/qwen2.5-coder. -/
theorem selectModel_no_viable_witness :
    selectModel ⟨false, true⟩ emptyHistory 0.5 5 1 "code" "normal" =
      (buildFallbackChain ⟨false, true⟩).headD "ollama/llama3.2" :=
  selectModel_no_viable ⟨false, true⟩ emptyHistory 0.5 5 1 "code" "normal"
    (by with_unfolding_all decide)

end AtlasCoder
